import Mathlib

/-!
Shallow embedding of `core/src/avm2/object/function_object.rs` (the
Function Object variant of the AVM2 object model): `FunctionObject`,
its data (`FunctionObjectData`), its constructors (`from_method`,
`from_function`) and the `TObject` operations it implements
(`to_string`, `to_locale_string`, `value_of`, `as_executable`,
`call`, `construct`, `derive`, `base`/`base_mut`).

The GC arena is modelled as an explicit heap: an association list from
addresses to `FunctionObjectData` plus a next-fresh-address counter.
Heap-mutating operations take the heap and return the new heap (the
mutation-context token of the source is this explicit heap threading).
Opaque collaborator types are modelled as follows: a `Method` descriptor
is an opaque `Nat` id, a closure `Scope` handle is an opaque `Nat`,
`Object` references are heap addresses, a `ClassObject` subclass marker
is a heap address, and errors are strings (the source uses stringly
typed errors). Executing the opaque code of a method is modelled by an
interpreter function `Interp`, passed in explicitly, which may read and
mutate the whole heap and produce a value or an error.
-/

/-- A heap address: identity of a GC cell (`GcCell` pointer). -/
abbrev Addr := Nat

/-- Errors are strings in the source (`Error = Cow<str>`-like). -/
abbrev Err := String

/-- A namespace, reduced to its name; `Namespace::public()` is the empty one. -/
abbrev Namespace := String

/-- `Namespace::public()`. -/
def Namespace.public : Namespace := ""

/-- A qualified name: namespace plus local name (`QName::new(ns, name)`). -/
structure QName where
  ns : Namespace
  name : String
deriving DecidableEq, Repr

/-- A script value: the subset of `Value` that the claims exercise.
Numbers are modelled as integers (no claim depends on float semantics),
and `object` holds a heap address. -/
inductive Value where
  | undefined : Value
  | null : Value
  | bool : Bool → Value
  | number : Int → Value
  | string : String → Value
  | object : Addr → Value
deriving DecidableEq, Repr

/-- Modelled from the spec: `Value::coerce_to_object` as used by
`construct` — an object coerces to itself; any other value raises the
property-coercion failure (the source file only calls it, its body is
outside this file). -/
def Value.coerce_to_object : Value → Except Err Addr
  | Value.object a => Except.ok a
  | _ => Except.error "TypeError: not an object"

/-- Modelled from the spec: an `Executable` pairs an opaque method
descriptor with an optional captured closure scope and an optional
forced receiver that overrides the call-site receiver
(`crate::avm2::function::Executable`, outside this file). -/
structure Executable where
  method : Nat
  scope : Option Nat
  receiver : Option Addr
deriving DecidableEq, Repr

/-- Modelled from the spec: `Executable::from_method` is pure data
assembly pairing the descriptor with the scope and receiver override;
it performs no execution and cannot fail. -/
def Executable.from_method (method : Nat) (scope : Option Nat)
    (receiver : Option Addr) : Executable :=
  { method := method, scope := scope, receiver := receiver }

/-- A fixed numeric slot entry: the qualified name it was installed
under, its value and its mutability flag. -/
structure SlotEntry where
  name : QName
  value : Value
  mutability : Bool
deriving DecidableEq, Repr

/-- Lookup in an association list keyed by a decidable-equality key. -/
def assocLookup {κ α : Type} [DecidableEq κ] : List (κ × α) → κ → Option α
  | [], _ => none
  | (k, v) :: rest, key => if key = k then some v else assocLookup rest key

/-- Insert-or-replace in an association list, keeping key uniqueness. -/
def assocInsert {κ α : Type} [DecidableEq κ] : List (κ × α) → κ → α → List (κ × α)
  | [], key, v => [(key, v)]
  | (k, w) :: rest, key, v =>
      if key = k then (key, v) :: rest else (k, w) :: assocInsert rest key v

/-- Base Object State (`ScriptObjectData`): the internal prototype link,
the qualified-name property map and the fixed numeric-slot array, common
to every heap value variant. The parts of `ScriptObjectData` that no
claim touches (interfaces, class metadata) are omitted. -/
structure ScriptObjectData where
  proto : Option Addr
  values : List (QName × Value)
  slots : List (Nat × SlotEntry)
deriving DecidableEq, Repr

/-- Modelled from the spec: `ScriptObjectData::base_new(proto, class)`
creates blank base state whose prototype link is the given object (the
class argument is always `None` at every call site in this file). -/
def ScriptObjectData.base_new (proto : Option Addr) : ScriptObjectData :=
  { proto := proto, values := [], slots := [] }

/-- `FunctionObjectData`: base script object state plus optional
executable code. -/
structure FunctionObjectData where
  base : ScriptObjectData
  exec : Option Executable
deriving DecidableEq, Repr

/-- The GC heap: allocated cells and the next fresh address. -/
structure Heap where
  cells : List (Addr × FunctionObjectData)
  next : Addr
deriving DecidableEq, Repr

/-- Dereference a heap address (`GcCell::read`). -/
def Heap.lookup (h : Heap) (a : Addr) : Option FunctionObjectData :=
  assocLookup h.cells a

/-- Allocate a fresh cell (`GcCell::allocate`): returns the new address
and the grown heap. -/
def Heap.allocate (h : Heap) (d : FunctionObjectData) : Addr × Heap :=
  (h.next, { cells := (h.next, d) :: h.cells, next := h.next + 1 })

/-- Apply a mutation to the cell at an address (`GcCell::write`); a
dangling address leaves the heap unchanged (unreachable in the source,
where every handle is a live cell). -/
def Heap.update (h : Heap) (a : Addr)
    (f : FunctionObjectData → FunctionObjectData) : Heap :=
  { cells := h.cells.map (fun p => if p.1 = a then (p.1, f p.2) else p),
    next := h.next }

/-- Well-formed heap: every allocated address is below the fresh
counter, so allocation really is fresh. -/
def Heap.Wf (h : Heap) : Prop :=
  ∀ p ∈ h.cells, p.1 < h.next

instance (h : Heap) : Decidable h.Wf := by
  unfold Heap.Wf
  infer_instance

/-- The prototype registry of the activation context
(`activation.avm2().prototypes()`): the global function prototype and
the global plain-object prototype. -/
structure Prototypes where
  function : Addr
  object : Addr
deriving DecidableEq, Repr

/-- The interpreter hook that executes an opaque method: it receives the
method descriptor, the effective receiver, the argument list, the
subclass marker, the self-reference to the callable object, and the
heap; it returns the possibly mutated heap and a value or an error. -/
abbrev Interp :=
  Nat → Option Addr → List Value → Option Addr → Addr → Heap →
    Heap × Except Err Value

/-- Modelled from the spec: `Executable::exec` invokes the interpreter
on the wrapped method, with the forced receiver overriding the
call-site receiver when present, passing through the arguments, the
subclass marker and the self-reference (outside this file). -/
def Executable.exec (interp : Interp) (e : Executable)
    (receiver : Option Addr) (arguments : List Value)
    (subclass : Option Addr) (callee : Addr) (h : Heap) :
    Heap × Except Err Value :=
  interp e.method (e.receiver.or receiver) arguments subclass callee h

/-- The qualified public name `"prototype"`
(`QName::new(Namespace::public(), "prototype")`). -/
def protoQName : QName :=
  { ns := Namespace.public, name := "prototype" }

/-- Modelled from the spec: prototype-chain property lookup
(`TObject::get_property`) with explicit fuel — read the own property
map first, else delegate to the prototype, terminating at the first
definer or at the empty prototype; absent properties read as
`undefined`. Fuel exhaustion (a chain cycle, a caller error per the
spec) also reads as `undefined`. -/
def getPropertyFuel (h : Heap) : Nat → Addr → QName → Value
  | 0, _, _ => Value.undefined
  | fuel + 1, a, qname =>
    match h.lookup a with
    | none => Value.undefined
    | some d =>
      match assocLookup d.base.values qname with
      | some v => v
      | none =>
        match d.base.proto with
        | none => Value.undefined
        | some p => getPropertyFuel h fuel p qname

/-- `get_property` with fuel covering every acyclic chain in the heap. -/
def get_property (h : Heap) (a : Addr) (qname : QName) : Value :=
  getPropertyFuel h (h.cells.length + 1) a qname

/-- Whether the object at an address has an own property of the given
qualified name. -/
def has_own_property (h : Heap) (a : Addr) (qname : QName) : Bool :=
  match h.lookup a with
  | none => false
  | some d => (assocLookup d.base.values qname).isSome

/-- Modelled from the spec: `install_slot(mc, name, id, value, flag)` —
install a fixed slot at the given index with the given value and
mutability flag, also binding the qualified name in the property map
(outside this file). -/
def install_slot (h : Heap) (a : Addr) (qname : QName) (id : Nat)
    (v : Value) (mutability : Bool) : Heap :=
  h.update a (fun d =>
    { d with base :=
      { d.base with
        values := assocInsert d.base.values qname v,
        slots := assocInsert d.base.slots id
          { name := qname, value := v, mutability := mutability } } })

/-- `FunctionObject::from_method`: allocate a function object whose
prototype link is the global function prototype and whose executable
wraps the method, scope and receiver override. Infallible (returns the
address directly, no `Result`). -/
def FunctionObject.from_method (protos : Prototypes) (method : Nat)
    (scope : Option Nat) (receiver : Option Addr) (h : Heap) :
    Addr × Heap :=
  h.allocate
    { base := ScriptObjectData.base_new (some protos.function),
      exec := some (Executable.from_method method scope receiver) }

/-- Modelled from the spec: `ScriptObject::object(mc, proto)` allocates
a fresh plain (non-callable) object whose own prototype is the given
object (outside this file). -/
def ScriptObject.object (proto : Addr) (h : Heap) : Addr × Heap :=
  h.allocate { base := ScriptObjectData.base_new (some proto), exec := none }

/-- `FunctionObject::from_function`: build the function via
`from_method` with no receiver override, allocate a fresh ES3 prototype
object whose own prototype is the global object prototype, and install
it on the function as fixed slot 0 under the qualified public name
`"prototype"`, non-mutable. The source wraps the address in `Ok`
unconditionally. -/
def FunctionObject.from_function (protos : Prototypes) (method : Nat)
    (scope : Option Nat) (h : Heap) : Heap × Except Err Addr :=
  let this_h := FunctionObject.from_method protos method scope none h
  let proto_h := ScriptObject.object protos.object this_h.2
  let h3 := install_slot proto_h.2 this_h.1 protoQName 0
    (Value.object proto_h.1) false
  (h3, Except.ok this_h.1)

/-- `TObject::base` for `FunctionObject`: read access to the base
state. -/
def FunctionObject.base (h : Heap) (a : Addr) : Option ScriptObjectData :=
  (h.lookup a).map FunctionObjectData.base

/-- `TObject::base_mut` for `FunctionObject`: exclusive mutable access
to the base state only — a mutation through it can change nothing but
the `base` field of the cell. -/
def FunctionObject.base_mut (h : Heap) (a : Addr)
    (f : ScriptObjectData → ScriptObjectData) : Heap :=
  h.update a (fun d => { d with base := f d.base })

/-- `FunctionObject::to_string`: the fixed literal, ignoring the wrapped
code, always `Ok`. -/
def FunctionObject.to_string (_h : Heap) (_a : Addr) : Except Err Value :=
  Except.ok (Value.string "function Function() \x7b\x7d")

/-- `FunctionObject::to_locale_string`: delegates to `to_string`. -/
def FunctionObject.to_locale_string (h : Heap) (a : Addr) : Except Err Value :=
  FunctionObject.to_string h a

/-- `FunctionObject::value_of`: the object itself wrapped as a value,
always `Ok`. -/
def FunctionObject.value_of (_h : Heap) (a : Addr) : Except Err Value :=
  Except.ok (Value.object a)

/-- `FunctionObject::as_executable`: the cell's optional executable. -/
def FunctionObject.as_executable (h : Heap) (a : Addr) : Option Executable :=
  (h.lookup a).bind FunctionObjectData.exec

/-- The error raised by `call` on a cell with no executable. -/
def notCallableError : Err := "Not a callable function!"

/-- `FunctionObject::call`: if the cell carries an executable, execute
it with the call-site receiver, arguments, subclass marker and a
self-reference; otherwise fail with the not-callable error, leaving the
heap untouched. A dangling self address (unreachable in the source)
also fails without touching the heap. -/
def FunctionObject.call (interp : Interp) (a : Addr)
    (receiver : Option Addr) (arguments : List Value)
    (subclass : Option Addr) (h : Heap) : Heap × Except Err Value :=
  match h.lookup a with
  | none => (h, Except.error "dangling object reference")
  | some d =>
    match d.exec with
    | some e => Executable.exec interp e receiver arguments subclass a h
    | none => (h, Except.error notCallableError)

/-- `FunctionObject::derive`: allocate a brand-new cell whose base
state's prototype link is the object `derive` was called on and whose
executable is empty. The source wraps the result in `Ok`
unconditionally. -/
def FunctionObject.derive (h : Heap) (this : Addr) : Addr × Heap :=
  h.allocate { base := ScriptObjectData.base_new (some this), exec := none }

/-- `FunctionObject::construct`: look up the qualified public
`"prototype"` property on the callable and coerce it to an object;
derive a new instance from that prototype; call the callable with the
new instance as receiver, the same arguments and no subclass marker;
return the new instance, discarding the call's value. Each failing step
returns its error with the heap as of that point. -/
def FunctionObject.construct (interp : Interp) (a : Addr)
    (arguments : List Value) (h : Heap) : Heap × Except Err Addr :=
  match (get_property h a protoQName).coerce_to_object with
  | Except.error e => (h, Except.error e)
  | Except.ok p =>
    let inst_h := FunctionObject.derive h p
    let res := FunctionObject.call interp a (some inst_h.1) arguments none inst_h.2
    match res.2 with
    | Except.error e => (res.1, Except.error e)
    | Except.ok _ => (res.1, Except.ok inst_h.1)

/-! Helper lemmas about the heap model. -/

theorem assocLookup_map_guard (ℓ : List (Addr × FunctionObjectData)) (a : Addr)
    (f : FunctionObjectData → FunctionObjectData) :
    assocLookup (ℓ.map fun p => if p.1 = a then (p.1, f p.2) else p) a =
      (assocLookup ℓ a).map f := by
  induction ℓ with
  | nil => rfl
  | cons p rest ih =>
    obtain ⟨k, d⟩ := p
    simp only [List.map_cons]
    split
    · rename_i hk
      simp only [assocLookup]
      rw [if_pos hk.symm, if_pos hk.symm, Option.map_some']
    · rename_i hk
      simp only [assocLookup]
      rw [if_neg (fun h => hk h.symm), if_neg (fun h => hk h.symm), ih]

theorem assocLookup_map_guard_ne (ℓ : List (Addr × FunctionObjectData))
    (a b : Addr) (f : FunctionObjectData → FunctionObjectData) (hne : b ≠ a) :
    assocLookup (ℓ.map fun p => if p.1 = a then (p.1, f p.2) else p) b =
      assocLookup ℓ b := by
  induction ℓ with
  | nil => rfl
  | cons p rest ih =>
    obtain ⟨k, d⟩ := p
    simp only [List.map_cons]
    split
    · rename_i hk
      subst hk
      simp only [assocLookup]
      rw [if_neg hne, if_neg hne, ih]
    · rename_i hk
      simp only [assocLookup]
      by_cases hb : b = k
      · rw [if_pos hb, if_pos hb]
      · rw [if_neg hb, if_neg hb, ih]

theorem Heap.lookup_update_self (h : Heap) (a : Addr)
    (f : FunctionObjectData → FunctionObjectData) :
    (h.update a f).lookup a = (h.lookup a).map f := by
  unfold Heap.update Heap.lookup
  exact assocLookup_map_guard h.cells a f

theorem Heap.lookup_update_ne (h : Heap) (a b : Addr)
    (f : FunctionObjectData → FunctionObjectData) (hne : b ≠ a) :
    (h.update a f).lookup b = h.lookup b := by
  unfold Heap.update Heap.lookup
  exact assocLookup_map_guard_ne h.cells a b f hne

theorem Heap.lookup_allocate (h : Heap) (d : FunctionObjectData) :
    (h.allocate d).2.lookup (h.allocate d).1 = some d := by
  simp [Heap.allocate, Heap.lookup, assocLookup]

theorem Heap.lookup_allocate_ne (h : Heap) (d : FunctionObjectData)
    (a : Addr) (hne : a ≠ h.next) :
    (h.allocate d).2.lookup a = h.lookup a := by
  simp [Heap.allocate, Heap.lookup, assocLookup, hne]

theorem assocLookup_lt_of_bounded {n : Nat}
    (ℓ : List (Addr × FunctionObjectData)) (b : Addr) (d : FunctionObjectData)
    (hall : ∀ p ∈ ℓ, p.1 < n) (hb : assocLookup ℓ b = some d) : b < n := by
  induction ℓ with
  | nil => simp [assocLookup] at hb
  | cons p rest ih =>
    by_cases hk : b = p.1
    · subst hk
      exact hall p (List.mem_cons_self p rest)
    · refine ih (fun q hq => hall q (List.mem_cons_of_mem p hq)) ?_
      simpa [assocLookup, hk] using hb

theorem Heap.Wf.lookup_lt {h : Heap} (hwf : h.Wf) {b : Addr}
    {d : FunctionObjectData} (hb : h.lookup b = some d) : b < h.next :=
  assocLookup_lt_of_bounded h.cells b d hwf hb

theorem Heap.Wf.lookup_next {h : Heap} (hwf : h.Wf) : h.lookup h.next = none := by
  cases hl : h.lookup h.next with
  | none => rfl
  | some d => exact absurd (hwf.lookup_lt hl) (lt_irrefl _)

theorem Heap.Wf.allocate {h : Heap} (hwf : h.Wf) (d : FunctionObjectData) :
    (h.allocate d).2.Wf := by
  intro p hp
  simp only [Heap.allocate] at hp ⊢
  rcases List.mem_cons.mp hp with hp | hp
  · subst hp
    exact Nat.lt_succ_self _
  · exact Nat.lt_succ_of_lt (hwf p hp)

/-- Exec-status preservation between heaps: every object allocated
before still exists and still has (or still lacks) an Executable. -/
def ExecPreserved (h h2 : Heap) : Prop :=
  ∀ a d, h.lookup a = some d →
    ∃ d2, h2.lookup a = some d2 ∧ d2.exec.isSome = d.exec.isSome

theorem execPreserved_refl (h : Heap) : ExecPreserved h h :=
  fun _ d hd => ⟨d, hd, rfl⟩

theorem execPreserved_trans {h1 h2 h3 : Heap}
    (g12 : ExecPreserved h1 h2) (g23 : ExecPreserved h2 h3) :
    ExecPreserved h1 h3 := by
  intro a d hd
  obtain ⟨d2, hd2, he2⟩ := g12 a d hd
  obtain ⟨d3, hd3, he3⟩ := g23 a d2 hd2
  exact ⟨d3, hd3, he3.trans he2⟩

theorem execPreserved_update (h : Heap) (a : Addr)
    (g : FunctionObjectData → FunctionObjectData)
    (hg : ∀ d, (g d).exec = d.exec) : ExecPreserved h (h.update a g) := by
  intro b d hb
  by_cases hba : b = a
  · subst hba
    refine ⟨g d, ?_, by rw [hg]⟩
    rw [Heap.lookup_update_self, hb, Option.map_some']
  · exact ⟨d, by rw [Heap.lookup_update_ne h a b g hba, hb], rfl⟩

theorem execPreserved_allocate {h : Heap} (hwf : h.Wf)
    (d0 : FunctionObjectData) : ExecPreserved h (h.allocate d0).2 := by
  intro b d hb
  have hlt : b < h.next := hwf.lookup_lt hb
  exact ⟨d, by rw [Heap.lookup_allocate_ne h d0 b (Nat.ne_of_lt hlt), hb], rfl⟩

theorem Heap.Wf.lookup_of_ge {h : Heap} (hwf : h.Wf) {b : Addr}
    (hge : h.next ≤ b) : h.lookup b = none := by
  cases hl : h.lookup b with
  | none => rfl
  | some d => exact absurd (hwf.lookup_lt hl) (Nat.not_lt.mpr hge)

/-! Concrete fixtures used by the witnesses. -/

/-- A plain, inert object: empty base state, no executable. -/
def plainData : FunctionObjectData :=
  { base := ScriptObjectData.base_new none, exec := none }

/-- A one-cell heap holding a plain object at address 0. -/
def heap1 : Heap := { cells := [(0, plainData)], next := 1 }

/-- A callable function object owning a `prototype` property that
points at address 1, with no forced receiver. -/
def fnData : FunctionObjectData :=
  { base := { proto := none,
              values := [(protoQName, Value.object 1)],
              slots := [] },
    exec := some { method := 0, scope := none, receiver := none } }

/-- A heap with the callable at address 0 and a plain prototype object
at address 1. -/
def heap2 : Heap := { cells := [(0, fnData), (1, plainData)], next := 2 }

/-- A callable bound to the forced receiver 0. -/
def boundData : FunctionObjectData :=
  { base := ScriptObjectData.base_new none,
    exec := some { method := 1, scope := none, receiver := some 0 } }

/-- A one-cell heap holding the bound callable at address 0. -/
def heap3 : Heap := { cells := [(0, boundData)], next := 1 }

/-- A trivial interpreter: mutates nothing, returns `undefined`. -/
def interp0 : Interp := fun _ _ _ _ _ h => (h, Except.ok Value.undefined)

/-! Claim theorems. -/

/-- C8: `to_string` on any Function Object, whatever method, scope or
receiver it wraps, succeeds with exactly the string literal
`function Function() {}`. -/
theorem FunctionObject.to_string_constant (h : Heap) (a : Addr) :
    FunctionObject.to_string h a =
      Except.ok (Value.string "function Function() \x7b\x7d") := rfl

/-- C10: `to_locale_string` returns exactly the same result as
`to_string` on every Function Object: the two conversion hooks are
extensionally equal on this variant. -/
theorem FunctionObject.to_locale_string_eq_to_string (h : Heap) (a : Addr) :
    FunctionObject.to_locale_string h a = FunctionObject.to_string h a := rfl

/-- C9: every object returned by `from_method` has its internal
prototype link set to the global function prototype of the activation
context and carries an Executable (`as_executable` is `some`);
`from_method` itself is infallible (it returns the address directly,
with no error case). -/
theorem FunctionObject.from_method_spec (protos : Prototypes) (method : Nat)
    (scope : Option Nat) (receiver : Option Addr) (h : Heap) :
    (FunctionObject.from_method protos method scope receiver h).2.lookup
        (FunctionObject.from_method protos method scope receiver h).1 =
      some { base := ScriptObjectData.base_new (some protos.function),
             exec := some (Executable.from_method method scope receiver) }
    ∧ FunctionObject.base
        (FunctionObject.from_method protos method scope receiver h).2
        (FunctionObject.from_method protos method scope receiver h).1 =
      some (ScriptObjectData.base_new (some protos.function))
    ∧ FunctionObject.as_executable
        (FunctionObject.from_method protos method scope receiver h).2
        (FunctionObject.from_method protos method scope receiver h).1 =
      some (Executable.from_method method scope receiver) := by
  refine ⟨Heap.lookup_allocate h _, ?_, ?_⟩ <;>
    simp [FunctionObject.from_method, FunctionObject.base,
      FunctionObject.as_executable, Heap.lookup, Heap.allocate, assocLookup]

/-- C6: `call` on a Function Object with no Executable returns the
not-callable error together with the heap exactly as it was — the
failing path mutates no cell. -/
theorem FunctionObject.call_inert_no_mutation (interp : Interp) (a : Addr)
    (receiver : Option Addr) (arguments : List Value)
    (subclass : Option Addr) (h : Heap) (d : FunctionObjectData)
    (hd : h.lookup a = some d) (hexec : d.exec = none) :
    FunctionObject.call interp a receiver arguments subclass h =
      (h, Except.error notCallableError) := by
  simp only [FunctionObject.call, hd, hexec]

/-- Witness for C6 at a concrete inert object. -/
theorem FunctionObject.call_inert_no_mutation_witness :
    FunctionObject.call interp0 0 none [] none heap1 =
      (heap1, Except.error notCallableError) :=
  FunctionObject.call_inert_no_mutation interp0 0 none [] none heap1
    plainData rfl rfl

/-- C2: the only failure `call` generates at this layer is the
not-callable error, produced exactly on the no-Executable branch; with
an Executable present the result is exactly the Executable's execution
result, so any error originates in the executed code and propagates
unchanged. -/
theorem FunctionObject.call_error_layer (interp : Interp) (a : Addr)
    (receiver : Option Addr) (arguments : List Value)
    (subclass : Option Addr) (h : Heap) (d : FunctionObjectData)
    (hd : h.lookup a = some d) :
    (d.exec = none →
      FunctionObject.call interp a receiver arguments subclass h =
        (h, Except.error notCallableError))
    ∧ (∀ e, d.exec = some e →
        FunctionObject.call interp a receiver arguments subclass h =
          Executable.exec interp e receiver arguments subclass a h) := by
  constructor
  · intro hexec
    simp only [FunctionObject.call, hd, hexec]
  · intro e hexec
    simp only [FunctionObject.call, hd, hexec]

/-- Witness for C2 at a concrete callable object. -/
theorem FunctionObject.call_error_layer_witness :
    FunctionObject.call interp0 0 (some 1) [] none heap2 =
      Executable.exec interp0 { method := 0, scope := none, receiver := none }
        (some 1) [] none 0 heap2 :=
  (FunctionObject.call_error_layer interp0 0 (some 1) [] none heap2
      fnData rfl).2 { method := 0, scope := none, receiver := none } rfl

/-- C7: `call` with an Executable present invokes the interpreter on
the wrapped method with the effective receiver (the Executable's forced
receiver when present, else the call-site receiver), the caller's
argument list and subclass marker, and the callable itself as the
self-reference, and returns exactly that execution's result; a forced
receiver wins over any call-site receiver, and without one the
call-site receiver is used unchanged. -/
theorem FunctionObject.call_receiver_passthrough (interp : Interp) (a : Addr)
    (receiver : Option Addr) (arguments : List Value)
    (subclass : Option Addr) (h : Heap) (d : FunctionObjectData)
    (e : Executable) (hd : h.lookup a = some d) (he : d.exec = some e) :
    FunctionObject.call interp a receiver arguments subclass h =
      interp e.method (e.receiver.or receiver) arguments subclass a h
    ∧ (∀ forced, e.receiver = some forced →
        e.receiver.or receiver = some forced)
    ∧ (e.receiver = none → e.receiver.or receiver = receiver) := by
  refine ⟨?_, ?_, ?_⟩
  · simp only [FunctionObject.call, hd, he, Executable.exec]
  · intro forced hf
    rw [hf]
    rfl
  · intro hf
    rw [hf]
    rfl

/-- Witness for C7: the bound callable runs with its forced receiver 0
even though receiver 5 is supplied at the call site. -/
theorem FunctionObject.call_receiver_passthrough_witness :
    FunctionObject.call interp0 0 (some 5) [Value.number 3] none heap3 =
      interp0 1 (some 0) [Value.number 3] none 0 heap3 :=
  (FunctionObject.call_receiver_passthrough interp0 0 (some 5)
      [Value.number 3] none heap3 boundData
      { method := 1, scope := none, receiver := some 0 } rfl rfl).1

/-- C3: `derive` returns a brand-new object — a fresh address, unused
in the old heap — whose internal prototype link is exactly the object
it was called on and whose Executable is empty, so `as_executable` is
`none` and calling the derived object fails with the not-callable
error; every other heap cell is untouched. -/
theorem FunctionObject.derive_spec (h : Heap) (o : Addr) (hwf : h.Wf) :
    h.lookup (FunctionObject.derive h o).1 = none
    ∧ (FunctionObject.derive h o).2.lookup (FunctionObject.derive h o).1 =
        some { base := ScriptObjectData.base_new (some o), exec := none }
    ∧ FunctionObject.base (FunctionObject.derive h o).2
        (FunctionObject.derive h o).1 =
      some (ScriptObjectData.base_new (some o))
    ∧ FunctionObject.as_executable (FunctionObject.derive h o).2
        (FunctionObject.derive h o).1 = none
    ∧ (∀ interp receiver arguments subclass,
        FunctionObject.call interp (FunctionObject.derive h o).1 receiver
          arguments subclass (FunctionObject.derive h o).2 =
        ((FunctionObject.derive h o).2, Except.error notCallableError))
    ∧ (∀ b, b ≠ (FunctionObject.derive h o).1 →
        (FunctionObject.derive h o).2.lookup b = h.lookup b) := by
  have hlk : (FunctionObject.derive h o).2.lookup (FunctionObject.derive h o).1 =
      some { base := ScriptObjectData.base_new (some o), exec := none } :=
    Heap.lookup_allocate h _
  refine ⟨hwf.lookup_next, hlk, ?_, ?_, ?_, ?_⟩
  · simp only [FunctionObject.base, hlk, Option.map_some']
  · simp only [FunctionObject.as_executable, hlk]
    rfl
  · intro interp receiver arguments subclass
    simp only [FunctionObject.call, hlk]
  · intro b hb
    exact Heap.lookup_allocate_ne h _ b hb

/-- Witness for C3 at a concrete heap: deriving from the plain object
at address 0. -/
theorem FunctionObject.derive_spec_witness :
    heap1.lookup (FunctionObject.derive heap1 0).1 = none
    ∧ FunctionObject.base (FunctionObject.derive heap1 0).2
        (FunctionObject.derive heap1 0).1 =
      some (ScriptObjectData.base_new (some 0))
    ∧ FunctionObject.as_executable (FunctionObject.derive heap1 0).2
        (FunctionObject.derive heap1 0).1 = none
    ∧ FunctionObject.call interp0 (FunctionObject.derive heap1 0).1 none []
        none (FunctionObject.derive heap1 0).2 =
      ((FunctionObject.derive heap1 0).2, Except.error notCallableError) :=
  ⟨(FunctionObject.derive_spec heap1 0 (by decide)).1,
   (FunctionObject.derive_spec heap1 0 (by decide)).2.2.1,
   (FunctionObject.derive_spec heap1 0 (by decide)).2.2.2.1,
   (FunctionObject.derive_spec heap1 0 (by decide)).2.2.2.2.1
     interp0 none [] none⟩

/-- C1: `construct` performs, in order: the prototype-chain lookup of
the qualified public name `prototype` on the callable, coerced to an
object `p`; `derive` on `p`, yielding the new instance (the next fresh
address); `call` on the callable with the new instance as receiver, the
same argument list and no subclass marker, against the post-derive
heap; and it returns the new instance address — not the value the
constructor body produced. -/
theorem FunctionObject.construct_spec (interp : Interp) (a p : Addr)
    (arguments : List Value) (h h2 : Heap) (v : Value)
    (hp : get_property h a protoQName = Value.object p)
    (hcall : FunctionObject.call interp a
        (some (FunctionObject.derive h p).1) arguments none
        (FunctionObject.derive h p).2 = (h2, Except.ok v)) :
    FunctionObject.construct interp a arguments h =
      (h2, Except.ok (FunctionObject.derive h p).1)
    ∧ (FunctionObject.derive h p).1 = h.next
    ∧ (FunctionObject.derive h p).2.lookup (FunctionObject.derive h p).1 =
        some { base := ScriptObjectData.base_new (some p), exec := none } := by
  refine ⟨?_, rfl, Heap.lookup_allocate h _⟩
  simp only [FunctionObject.construct, hp, Value.coerce_to_object]
  rw [hcall]

/-- Witness for C1: constructing from the concrete callable at address
0 whose `prototype` property is the object at address 1; the result is
the freshly derived instance, not the `undefined` the body returned. -/
theorem FunctionObject.construct_spec_witness :
    FunctionObject.construct interp0 0 [] heap2 =
      ((FunctionObject.derive heap2 1).2,
        Except.ok (FunctionObject.derive heap2 1).1)
    ∧ (FunctionObject.derive heap2 1).1 = heap2.next
    ∧ (FunctionObject.derive heap2 1).2.lookup
        (FunctionObject.derive heap2 1).1 =
      some { base := ScriptObjectData.base_new (some 1), exec := none } :=
  FunctionObject.construct_spec interp0 0 1 []
    heap2 (FunctionObject.derive heap2 1).2 Value.undefined rfl rfl

/-- C4: immediately after `from_function`, the returned function object
(which is the fresh address `h.next`) has an own property under the
qualified public name `prototype`, installed as fixed slot 0 with the
mutability flag `false`, whose value is a fresh plain object (address
`h.next + 1`, unused before) whose own prototype link is the global
object prototype of the activation context. -/
theorem FunctionObject.from_function_spec (protos : Prototypes)
    (method : Nat) (scope : Option Nat) (h : Heap) (hwf : h.Wf) :
    (FunctionObject.from_function protos method scope h).2 =
      Except.ok h.next
    ∧ h.lookup h.next = none
    ∧ h.lookup (h.next + 1) = none
    ∧ has_own_property (FunctionObject.from_function protos method scope h).1
        h.next protoQName = true
    ∧ (FunctionObject.from_function protos method scope h).1.lookup h.next =
        some { base := { proto := some protos.function,
                         values := [(protoQName, Value.object (h.next + 1))],
                         slots := [(0, { name := protoQName,
                                         value := Value.object (h.next + 1),
                                         mutability := false })] },
               exec := some (Executable.from_method method scope none) }
    ∧ (FunctionObject.from_function protos method scope h).1.lookup
        (h.next + 1) =
      some { base := ScriptObjectData.base_new (some protos.object),
             exec := none } := by
  have hfresh1 : h.lookup (h.next + 1) = none :=
    hwf.lookup_of_ge (Nat.le_succ _)
  have hne : h.next ≠ h.next + 1 := Nat.ne_of_lt (Nat.lt_succ_self _)
  have h1l : (FunctionObject.from_method protos method scope none h).2.lookup
      h.next =
      some { base := ScriptObjectData.base_new (some protos.function),
             exec := some (Executable.from_method method scope none) } :=
    Heap.lookup_allocate h _
  have h21 : (ScriptObject.object protos.object
      (FunctionObject.from_method protos method scope none h).2).2.lookup
      h.next =
      some { base := ScriptObjectData.base_new (some protos.function),
             exec := some (Executable.from_method method scope none) } :=
    (Heap.lookup_allocate_ne _ _ h.next hne).trans h1l
  have h2new : (ScriptObject.object protos.object
      (FunctionObject.from_method protos method scope none h).2).2.lookup
      (h.next + 1) =
      some { base := ScriptObjectData.base_new (some protos.object),
             exec := none } :=
    Heap.lookup_allocate _ _
  have hkey : FunctionObject.from_function protos method scope h =
      (install_slot
        (ScriptObject.object protos.object
          (FunctionObject.from_method protos method scope none h).2).2
        h.next protoQName 0 (Value.object (h.next + 1)) false,
       Except.ok h.next) := rfl
  have hmain : (FunctionObject.from_function protos method scope h).1.lookup
      h.next =
      some { base := { proto := some protos.function,
                       values := [(protoQName, Value.object (h.next + 1))],
                       slots := [(0, { name := protoQName,
                                       value := Value.object (h.next + 1),
                                       mutability := false })] },
             exec := some (Executable.from_method method scope none) } := by
    rw [hkey]
    simp only [install_slot]
    rw [Heap.lookup_update_self, h21]
    rfl
  have hproto : (FunctionObject.from_function protos method scope h).1.lookup
      (h.next + 1) =
      some { base := ScriptObjectData.base_new (some protos.object),
             exec := none } := by
    rw [hkey]
    simp only [install_slot]
    rw [Heap.lookup_update_ne _ _ _ _ (Ne.symm hne), h2new]
  refine ⟨by rw [hkey], hwf.lookup_next, hfresh1, ?_, hmain, hproto⟩
  simp only [has_own_property, hmain]
  rfl

/-- Witness for C4 on a concrete well-formed heap. -/
theorem FunctionObject.from_function_spec_witness :
    (FunctionObject.from_function { function := 0, object := 0 } 7 none
        heap1).2 = Except.ok heap1.next
    ∧ has_own_property
        (FunctionObject.from_function { function := 0, object := 0 } 7 none
          heap1).1 heap1.next protoQName = true
    ∧ (FunctionObject.from_function { function := 0, object := 0 } 7 none
        heap1).1.lookup (heap1.next + 1) =
      some { base := ScriptObjectData.base_new (some 0), exec := none } :=
  ⟨(FunctionObject.from_function_spec { function := 0, object := 0 } 7 none
      heap1 (by decide)).1,
   (FunctionObject.from_function_spec { function := 0, object := 0 } 7 none
      heap1 (by decide)).2.2.2.1,
   (FunctionObject.from_function_spec { function := 0, object := 0 } 7 none
      heap1 (by decide)).2.2.2.2.2⟩

/-- C5: a Function Object's callable/inert status is fixed at creation
(`from_method`/`from_function` create it with an Executable, `derive`
without one) and no operation of the capability contract changes, for
any previously allocated object, whether it has an Executable: `base`,
the conversions and `as_executable` are pure reads by type; `base_mut`
and the slot installation built on it can only rewrite the `base`
field; the allocating operations leave every existing cell intact; and
`call`/`construct` change the heap only through the executed code,
which — mutating only through the capability contract, as `hinterp`
records — preserves every object's status. -/
theorem FunctionObject.exec_status_fixed (protos : Prototypes)
    (interp : Interp)
    (hinterp : ∀ m r args sub c h,
      ExecPreserved h (interp m r args sub c h).1) :
    (∀ h a f, ExecPreserved h (FunctionObject.base_mut h a f))
    ∧ (∀ h a qn id v mb, ExecPreserved h (install_slot h a qn id v mb))
    ∧ (∀ h o, h.Wf →
        ExecPreserved h (FunctionObject.derive h o).2
        ∧ FunctionObject.as_executable (FunctionObject.derive h o).2
            (FunctionObject.derive h o).1 = none)
    ∧ (∀ h m s r, h.Wf →
        ExecPreserved h (FunctionObject.from_method protos m s r h).2
        ∧ FunctionObject.as_executable
            (FunctionObject.from_method protos m s r h).2
            (FunctionObject.from_method protos m s r h).1 =
          some (Executable.from_method m s r))
    ∧ (∀ h m s, h.Wf →
        ExecPreserved h (FunctionObject.from_function protos m s h).1)
    ∧ (∀ h a r args sub,
        ExecPreserved h (FunctionObject.call interp a r args sub h).1)
    ∧ (∀ h a args, h.Wf →
        ExecPreserved h (FunctionObject.construct interp a args h).1) := by
  have hcallp : ∀ h a r args sub,
      ExecPreserved h (FunctionObject.call interp a r args sub h).1 := by
    intro h a r args sub
    cases hl : h.lookup a with
    | none =>
      simp only [FunctionObject.call, hl]
      exact execPreserved_refl h
    | some d =>
      cases hex : d.exec with
      | none =>
        simp only [FunctionObject.call, hl, hex]
        exact execPreserved_refl h
      | some e =>
        simp only [FunctionObject.call, hl, hex, Executable.exec]
        exact hinterp _ _ _ _ _ _
  refine ⟨?_, ?_, ?_, ?_, ?_, hcallp, ?_⟩
  · intro h a f
    exact execPreserved_update _ _ _ (fun d => rfl)
  · intro h a qn id v mb
    exact execPreserved_update _ _ _ (fun d => rfl)
  · intro h o hwf
    refine ⟨execPreserved_allocate hwf _, ?_⟩
    simp only [FunctionObject.as_executable, FunctionObject.derive,
      Heap.lookup_allocate]
    rfl
  · intro h m s r hwf
    refine ⟨execPreserved_allocate hwf _, ?_⟩
    simp only [FunctionObject.as_executable, FunctionObject.from_method,
      Heap.lookup_allocate]
    rfl
  · intro h m s hwf
    have e1 : ExecPreserved h
        (h.allocate
          { base := ScriptObjectData.base_new (some protos.function),
            exec := some (Executable.from_method m s none) }).2 :=
      execPreserved_allocate hwf _
    have e2 : ExecPreserved
        (h.allocate
          { base := ScriptObjectData.base_new (some protos.function),
            exec := some (Executable.from_method m s none) }).2
        ((h.allocate
          { base := ScriptObjectData.base_new (some protos.function),
            exec := some (Executable.from_method m s none) }).2.allocate
          { base := ScriptObjectData.base_new (some protos.object),
            exec := none }).2 :=
      execPreserved_allocate (hwf.allocate _) _
    exact execPreserved_trans (execPreserved_trans e1 e2)
      (execPreserved_update _ _ _ (fun d => rfl))
  · intro h a args hwf
    cases hc : (get_property h a protoQName).coerce_to_object with
    | error e =>
      simp only [FunctionObject.construct, hc]
      exact execPreserved_refl h
    | ok p =>
      simp only [FunctionObject.construct, hc]
      cases hres : (FunctionObject.call interp a
          (some (FunctionObject.derive h p).1) args none
          (FunctionObject.derive h p).2).2 <;>
        simp only [hres] <;>
        exact execPreserved_trans (execPreserved_allocate hwf _)
          (hcallp _ _ _ _ _)

/-- Witness for C5: a trivial interpreter on a concrete heap. -/
theorem FunctionObject.exec_status_fixed_witness :
    ExecPreserved heap1 (FunctionObject.call interp0 0 none [] none heap1).1
    ∧ ExecPreserved heap1 (FunctionObject.derive heap1 0).2 :=
  ⟨(FunctionObject.exec_status_fixed { function := 0, object := 0 } interp0
      (fun _ _ _ _ _ h => execPreserved_refl h)).2.2.2.2.2.1
      heap1 0 none [] none,
   ((FunctionObject.exec_status_fixed { function := 0, object := 0 } interp0
      (fun _ _ _ _ _ h => execPreserved_refl h)).2.2.1
      heap1 0 (by decide)).1⟩
